import Mathlib

/-!
Verification of the MeshParty `vtk.py` module: a shallow embedding of the
numpy-to-VTK conversion helpers (`numpy_rep_to_vtk`, `graph_to_vtk`,
`trimesh_to_vtk`) and the `calculate_cross_sections` orchestration loop,
together with proofs of the specification claims about them.

Arrays are modelled as rectangular lists of rows of machine integers
(`Arr2`), vertex coordinates as real triples (`Vec3`), fallible Python
functions as `Except` values whose error constructors name the `ValueError`
conditions in the source, and the external VTK filter pipeline as an
abstract area function parameter.
-/

set_option autoImplicit false

namespace MeshParty

/-- A vertex coordinate triple, modelling one row of an `Nx3` float array. -/
structure Vec3 where
  x : ℝ
  y : ℝ
  z : ℝ

instance : Sub Vec3 :=
  ⟨fun a b => ⟨a.x - b.x, a.y - b.y, a.z - b.z⟩⟩

theorem Vec3.sub_def (a b : Vec3) :
    a - b = ⟨a.x - b.x, a.y - b.y, a.z - b.z⟩ := rfl

/-- A rectangular `MxK` integer array: `rows` are the `M` rows, `ncols` is
`K` (the second component of the numpy `shape`), and every row has exactly
`ncols` entries. Entries are `Int` because numpy integer arrays may hold
negative values. -/
structure Arr2 where
  rows : List (List Int)
  ncols : Nat
  hrect : ∀ r ∈ rows, r.length = ncols

/-- All entries of the array in row-major (ravel) order. -/
def Arr2.flatten (a : Arr2) : List Int :=
  a.rows.flatMap (fun r => r)

/-- `np.max` over all entries of the array: `none` models the `ValueError`
numpy raises for a reduction over a zero-size array. -/
def npMax (a : Arr2) : Option Int :=
  match a.flatten with
  | [] => none
  | v :: vs => some (vs.foldl max v)

/-- The `ValueError` conditions raised in `vtk.py`: a wrong column count,
an index array entry at least the vertex count (carrying `np.max` of the
array, as interpolated into the message), and the numpy reduction error
from `np.max` of an empty array. -/
inductive VtkErr where
  | wrongShape : VtkErr
  | outOfRange : Int → VtkErr
  | emptyReduction : VtkErr
deriving DecidableEq

/-- The observable result of `numpy_rep_to_vtk`: the polydata point list
and the packed cell array (`SetCells` receives the row count and the
ravel of `hstack((ones(n)[:,None] * ndim, shapes))`). -/
structure PolyData where
  points : List Vec3
  ncells : Nat
  cellData : List Int
  isLines : Bool

/-- Embedding of `numpy_rep_to_vtk`: the point set is the vertex list and
the cell array packs each row of `shapes` behind its arity `ndim`. -/
def numpy_rep_to_vtk (vertices : List Vec3) (shapes : Arr2) :
    List Vec3 × Nat × List Int :=
  (vertices, shapes.rows.length,
    shapes.rows.flatMap (fun r => (shapes.ncols : Int) :: r))

/-- Embedding of `graph_to_vtk`: raise when `edges.shape[1] != 2`, then
raise when `np.max(edges) >= len(vertices)` (where `np.max` itself raises
on an empty array), otherwise build the polydata and set its lines. -/
def graph_to_vtk (vertices : List Vec3) (edges : Arr2) :
    Except VtkErr PolyData :=
  if edges.ncols ≠ 2 then
    .error .wrongShape
  else
    match npMax edges with
    | none => .error .emptyReduction
    | some m =>
      if (vertices.length : Int) ≤ m then
        .error (.outOfRange m)
      else
        let mc := numpy_rep_to_vtk vertices edges
        .ok ⟨mc.1, mc.2.1, mc.2.2, true⟩

/-- Embedding of `trimesh_to_vtk`: raise when `tris.shape[1] != 3`, then
raise when `np.max(tris) >= len(vertices)`, otherwise build the polydata
and set its polys. -/
def trimesh_to_vtk (vertices : List Vec3) (tris : Arr2) :
    Except VtkErr PolyData :=
  if tris.ncols ≠ 3 then
    .error .wrongShape
  else
    match npMax tris with
    | none => .error .emptyReduction
    | some m =>
      if (vertices.length : Int) ≤ m then
        .error (.outOfRange m)
      else
        let mc := numpy_rep_to_vtk vertices tris
        .ok ⟨mc.1, mc.2.1, mc.2.2, false⟩

/-- Whether a call result is the out-of-range `ValueError` (and no other
outcome). -/
def raisesOutOfRange : Except VtkErr PolyData → Bool
  | .error (.outOfRange _) => true
  | _ => false

/-- Whether a call returns normally (no `ValueError` of any kind). -/
def returnsNormally : Except VtkErr PolyData → Bool
  | .ok _ => true
  | .error _ => false

theorem le_foldl_max (l : List Int) : ∀ v : Int, v ≤ l.foldl max v := by
  induction l with
  | nil => intro v; exact le_refl v
  | cons a t ih => intro v; exact le_trans (le_max_left v a) (ih (max v a))

theorem mem_le_foldl_max (l : List Int) :
    ∀ x v : Int, x ∈ l → x ≤ l.foldl max v := by
  induction l with
  | nil => intro x v hx; exact absurd hx (List.not_mem_nil x)
  | cons a t ih =>
    intro x v hx
    rcases List.mem_cons.mp hx with h1 | h1
    · subst h1; exact le_trans (le_max_right v x) (le_foldl_max t (max v x))
    · exact ih x (max v a) h1

theorem le_npMax_of_mem (a : Arr2) (x : Int) (hx : x ∈ a.flatten) :
    ∃ m, npMax a = some m ∧ x ≤ m := by
  cases h : a.flatten with
  | nil => rw [h] at hx; exact absurd hx (List.not_mem_nil x)
  | cons v vs =>
    rw [h] at hx
    refine ⟨vs.foldl max v, ?_, ?_⟩
    · unfold npMax; rw [h]
    · rcases List.mem_cons.mp hx with h1 | h1
      · subst h1; exact le_foldl_max vs x
      · exact mem_le_foldl_max vs x v h1

/-- Concrete inputs used to instantiate the universally quantified
theorems: one vertex at the origin. -/
def vertsOne : List Vec3 := [⟨0, 0, 0⟩]

/-- A single edge whose first entry 5 exceeds any one-vertex count. -/
def edgesHigh : Arr2 := ⟨[[5, 0]], 2, by decide⟩

/-- A single triangle whose entry 5 exceeds any one-vertex count. -/
def trisHigh : Arr2 := ⟨[[5, 0, 0]], 3, by decide⟩

/-- An edge list with a negative entry and maximum entry 0. -/
def edgesNeg : Arr2 := ⟨[[-1, 0]], 2, by decide⟩

/-- A triangle list with negative entries and maximum entry 0. -/
def trisNeg : Arr2 := ⟨[[-2, 0, -1]], 3, by decide⟩

/-- An edge array of shape `(0, 2)`: zero rows, two columns. -/
def edgesEmpty : Arr2 := ⟨[], 2, by decide⟩

/-- C2: for every vertex array of length N and every edge array of shape
(M,2), if some edge entry is at least N then `graph_to_vtk` raises a
ValueError (specifically the out-of-range one, carrying the array
maximum). -/
theorem graph_to_vtk_raises_on_oob (vertices : List Vec3) (edges : Arr2)
    (h2 : edges.ncols = 2) (x : Int) (hx : x ∈ edges.flatten)
    (hge : (vertices.length : Int) ≤ x) :
    ∃ m, graph_to_vtk vertices edges = .error (.outOfRange m) := by
  obtain ⟨m, hm, hxm⟩ := le_npMax_of_mem edges x hx
  refine ⟨m, ?_⟩
  have hle : (vertices.length : Int) ≤ m := le_trans hge hxm
  unfold graph_to_vtk
  simp [h2, hm, hle]

theorem graph_to_vtk_raises_on_oob_witness :
    ∃ m, graph_to_vtk vertsOne edgesHigh = .error (.outOfRange m) :=
  graph_to_vtk_raises_on_oob vertsOne edgesHigh rfl 5 (by decide) (by decide)

/-- C3: for every vertex array of length N and every triangle array of
shape (M,3), if some triangle entry is at least N then `trimesh_to_vtk`
raises a ValueError (the out-of-range one, carrying the array maximum). -/
theorem trimesh_to_vtk_raises_on_oob (vertices : List Vec3) (tris : Arr2)
    (h3 : tris.ncols = 3) (x : Int) (hx : x ∈ tris.flatten)
    (hge : (vertices.length : Int) ≤ x) :
    ∃ m, trimesh_to_vtk vertices tris = .error (.outOfRange m) := by
  obtain ⟨m, hm, hxm⟩ := le_npMax_of_mem tris x hx
  refine ⟨m, ?_⟩
  have hle : (vertices.length : Int) ≤ m := le_trans hge hxm
  unfold trimesh_to_vtk
  simp [h3, hm, hle]

theorem trimesh_to_vtk_raises_on_oob_witness :
    ∃ m, trimesh_to_vtk vertsOne trisHigh = .error (.outOfRange m) :=
  trimesh_to_vtk_raises_on_oob vertsOne trisHigh rfl 5 (by decide) (by decide)

/-- C4: for every edge array with a column count other than 2,
`graph_to_vtk` raises the wrong-shape ValueError, regardless of the
vertex array. -/
theorem graph_to_vtk_raises_on_shape (vertices : List Vec3) (edges : Arr2)
    (h : edges.ncols ≠ 2) :
    graph_to_vtk vertices edges = .error .wrongShape := by
  unfold graph_to_vtk
  simp [h]

theorem graph_to_vtk_raises_on_shape_witness :
    graph_to_vtk vertsOne trisHigh = .error .wrongShape :=
  graph_to_vtk_raises_on_shape vertsOne trisHigh (by decide)

/-- C5: for every triangle array with a column count other than 3,
`trimesh_to_vtk` raises the wrong-shape ValueError, regardless of the
vertex array. -/
theorem trimesh_to_vtk_raises_on_shape (vertices : List Vec3) (tris : Arr2)
    (h : tris.ncols ≠ 3) :
    trimesh_to_vtk vertices tris = .error .wrongShape := by
  unfold trimesh_to_vtk
  simp [h]

theorem trimesh_to_vtk_raises_on_shape_witness :
    trimesh_to_vtk vertsOne edgesHigh = .error .wrongShape :=
  trimesh_to_vtk_raises_on_shape vertsOne edgesHigh (by decide)

/-- C9: the out-of-range validation compares only the maximum entry of
the index array with the vertex count, so whenever that maximum is below
the vertex count the out-of-range ValueError is not raised by either
function, even if some entries are negative. -/
theorem oob_check_uses_only_max (vertices : List Vec3) (edges tris : Arr2)
    (me mt : Int) (hme : npMax edges = some me)
    (hlt : me < (vertices.length : Int))
    (hmt : npMax tris = some mt)
    (hlt3 : mt < (vertices.length : Int)) :
    raisesOutOfRange (graph_to_vtk vertices edges) = false ∧
      raisesOutOfRange (trimesh_to_vtk vertices tris) = false := by
  constructor
  · unfold graph_to_vtk
    by_cases h2 : edges.ncols = 2
    · simp [h2, hme, not_le.mpr hlt, raisesOutOfRange]
    · simp [h2, raisesOutOfRange]
  · unfold trimesh_to_vtk
    by_cases h3 : tris.ncols = 3
    · simp [h3, hmt, not_le.mpr hlt3, raisesOutOfRange]
    · simp [h3, raisesOutOfRange]

theorem oob_check_uses_only_max_witness :
    raisesOutOfRange (graph_to_vtk vertsOne edgesNeg) = false ∧
      raisesOutOfRange (trimesh_to_vtk vertsOne trisNeg) = false :=
  oob_check_uses_only_max vertsOne edgesNeg trisNeg 0 0
    (by decide) (by decide) (by decide) (by decide)

/-- C1 counterexample: an edge array of shape (0,2) has the correct column
count and no out-of-range entry (it has no entries at all), yet
`graph_to_vtk` raises a ValueError, because `np.max` of a zero-size array
raises; so the claimed two raise situations are not exhaustive and the
M = 0 case does not return normally. -/
theorem graph_to_vtk_empty_raises :
    graph_to_vtk vertsOne edgesEmpty = .error .emptyReduction ∧
      edgesEmpty.ncols = 2 ∧ edgesEmpty.rows.length = 0 :=
  ⟨rfl, rfl, rfl⟩

/-- C1 (amended): the two conversion functions return normally exactly
when the shape array has the right column count, is nonempty, and its
maximum entry is below the vertex count; the raise situations are the
wrong column count, an out-of-range entry, and additionally the empty
(M = 0) index array, whose `np.max` reduction raises a ValueError. -/
theorem conversion_raise_characterization (vertices : List Vec3)
    (edges tris : Arr2) :
    (returnsNormally (graph_to_vtk vertices edges) = true ↔
      edges.ncols = 2 ∧
        ∃ m, npMax edges = some m ∧ m < (vertices.length : Int)) ∧
    (returnsNormally (trimesh_to_vtk vertices tris) = true ↔
      tris.ncols = 3 ∧
        ∃ m, npMax tris = some m ∧ m < (vertices.length : Int)) := by
  constructor
  · unfold graph_to_vtk
    by_cases h2 : edges.ncols = 2
    · cases hm : npMax edges with
      | none =>
        simp [h2, hm, returnsNormally]
      | some m =>
        by_cases hle : (vertices.length : Int) ≤ m
        · simp [h2, hm, hle, returnsNormally, not_lt.mpr hle]
        · simp [h2, hm, hle, returnsNormally, not_le.mp hle]
    · simp [h2, returnsNormally]
  · unfold trimesh_to_vtk
    by_cases h3 : tris.ncols = 3
    · cases hm : npMax tris with
      | none =>
        simp [h3, hm, returnsNormally]
      | some m =>
        by_cases hle : (vertices.length : Int) ≤ m
        · simp [h3, hm, hle, returnsNormally, not_lt.mpr hle]
        · simp [h3, hm, hle, returnsNormally, not_le.mp hle]
    · simp [h3, returnsNormally]

/-- The VTK object constructors invoked in the body of
`calculate_cross_sections`, by role. -/
inductive FilterCtor where
  | planeCutter : FilterCtor
  | plane : FilterCtor
  | cleanPolyData : FilterCtor
  | connectivityFilter : FilterCtor
  | stripper : FilterCtor
  | massProperties : FilterCtor
  | triangleFilter : FilterCtor
  | polyData : FilterCtor
deriving DecidableEq

/-- Constructor calls before the loop, in source order: `vtkPlaneCutter`,
`vtkPlane`, `vtkCleanPolyData`, `vtkPolyDataConnectivityFilter`,
`vtkStripper`, `vtkMassProperties`, `vtkTriangleFilter`. -/
def preloopCtors : List FilterCtor :=
  [.planeCutter, .plane, .cleanPolyData, .connectivityFilter,
    .stripper, .massProperties, .triangleFilter]

/-- Constructor calls inside one loop iteration, in source order: the
fresh `vtkPolyData` for `cutPoly` and the fresh `vtkMassProperties`
rebound to `massfilter`. -/
def iterCtors : List FilterCtor :=
  [.polyData, .massProperties]

/-- Constructor calls made by the loop over `graph_edges` when it runs
`m` iterations. -/
def loopCtors : Nat → List FilterCtor
  | 0 => []
  | n + 1 => loopCtors n ++ iterCtors

/-- The full trace of VTK object constructions during one call of
`calculate_cross_sections` whose `graph_edges` has `m` edges. -/
def ctorTrace (m : Nat) : List FilterCtor :=
  preloopCtors ++ loopCtors m

/-- C6 counterexample: with a single edge, the `vtkMassProperties`
constructor runs twice in one call (once before the loop, once inside the
iteration), so `massfilter` is not a single object created once and
reused: line 141 constructs a new mass filter every iteration. -/
theorem massfilter_rebuilt_each_iteration :
    (ctorTrace 1).count FilterCtor.massProperties = 2 ∧
      (ctorTrace 0).count FilterCtor.massProperties = 1 := by
  decide

theorem count_loopCtors_massProperties (m : Nat) :
    (loopCtors m).count FilterCtor.massProperties = m := by
  induction m with
  | zero => rfl
  | succ n ih => simp [loopCtors, List.count_append, ih, iterCtors]

theorem count_loopCtors_other (c : FilterCtor) (m : Nat)
    (hc : c ≠ FilterCtor.massProperties) (hp : c ≠ FilterCtor.polyData) :
    (loopCtors m).count c = 0 := by
  induction m with
  | zero => rfl
  | succ n ih =>
    simp [loopCtors, List.count_append, ih, iterCtors,
      List.count_cons, hc, hp]

/-- C6 (amended): across one call with `m` edges, `cutter`, `cd` and `cf`
(and also the plane, the stripper and the triangle filter) are each
constructed exactly once, before the loop, and reused by every iteration;
`massfilter` alone is constructed `m + 1` times, once before the loop and
freshly again in every iteration, discarding the pre-loop one. -/
theorem filter_construction_counts (m : Nat) :
    (ctorTrace m).count FilterCtor.planeCutter = 1 ∧
    (ctorTrace m).count FilterCtor.cleanPolyData = 1 ∧
    (ctorTrace m).count FilterCtor.connectivityFilter = 1 ∧
    (ctorTrace m).count FilterCtor.plane = 1 ∧
    (ctorTrace m).count FilterCtor.stripper = 1 ∧
    (ctorTrace m).count FilterCtor.triangleFilter = 1 ∧
    (ctorTrace m).count FilterCtor.massProperties = m + 1 := by
  refine ⟨?_, ?_, ?_, ?_, ?_, ?_, ?_⟩
  all_goals
    simp [ctorTrace, List.count_append, count_loopCtors_massProperties,
      count_loopCtors_other, preloopCtors]

/-- Euclidean norm of a coordinate triple, as `np.linalg.norm` computes it
for one row. -/
noncomputable def norm3 (v : Vec3) : ℝ :=
  Real.sqrt (v.x ^ 2 + v.y ^ 2 + v.z ^ 2)

/-- Componentwise division of a triple by a scalar. -/
noncomputable def vdiv (v : Vec3) (c : ℝ) : Vec3 :=
  ⟨v.x / c, v.y / c, v.z / c⟩

/-- The plane normal used for one graph edge, embedding lines 116 and 117:
the difference `graph_verts[edge[0]] - graph_verts[edge[1]]` divided by
its Euclidean norm. -/
noncomputable def edgeNormal (graph_verts : Nat → Vec3) (e : Nat × Nat) :
    Vec3 :=
  vdiv (graph_verts e.1 - graph_verts e.2)
    (norm3 (graph_verts e.1 - graph_verts e.2))

/-- The plane origin used for one graph edge, embedding line 123:
`graph_verts[edge[0]]`. -/
def edgeOrigin (graph_verts : Nat → Vec3) (e : Nat × Nat) : Vec3 :=
  graph_verts e.1

/-- A triangle mesh input: vertex positions and a faces index array. -/
structure TriMesh where
  vertices : List Vec3
  faces : Arr2

/-- Embedding of `calculate_cross_sections`. The mesh is converted by
`trimesh_to_vtk` first (line 98, propagating its ValueError); the VTK
pipeline built over the mesh polydata (plane cutter, clean filter,
connectivity filter with closest point at the plane origin, stripper,
triangle filter, mass properties) is abstracted as `area normal origin`,
the surface area the pipeline reports for the plane with that normal and
origin. The per-edge normals are precomputed in a vectorized pass (lines
116 and 117), the result array starts as zeros of length `M` (line 112)
and the loop writes entry `k` from edge `k` (lines 118 to 145). -/
noncomputable def calculate_cross_sections (area : Vec3 → Vec3 → ℝ)
    (mesh : TriMesh) (graph_verts : Nat → Vec3)
    (graph_edges : List (Nat × Nat)) : Except VtkErr (List ℝ) :=
  match trimesh_to_vtk mesh.vertices mesh.faces with
  | .error e => .error e
  | .ok _ =>
    let dvs := graph_edges.map (fun e => edgeNormal graph_verts e)
    let init := List.replicate graph_edges.length (0 : ℝ)
    .ok ((List.range graph_edges.length).foldl
      (fun cs k =>
        cs.set k (area (dvs.getD k ⟨0, 0, 0⟩)
          (edgeOrigin graph_verts (graph_edges.getD k (0, 0))))) init)

theorem set_prefix_append {α : Type} (xs : List α) (a v : α) (ys : List α) :
    (xs ++ a :: ys).set xs.length v = xs ++ v :: ys := by
  induction xs with
  | nil => rfl
  | cons b t ih => simp [ih]

theorem foldl_set_range {α : Type} (f : Nat → α) :
    ∀ (n : Nat) (l : List α), n ≤ l.length →
      (List.range n).foldl (fun cs k => cs.set k (f k)) l =
        (List.range n).map f ++ l.drop n := by
  intro n
  induction n with
  | zero => intro l _; simp
  | succ n ih =>
    intro l hl
    have hn : n < l.length := hl
    rw [List.range_succ, List.foldl_append, ih l (le_of_lt hn)]
    have hd : l.drop n = l[n] :: l.drop (n + 1) :=
      List.drop_eq_getElem_cons hn
    rw [List.foldl_cons, List.foldl_nil, hd]
    have hset := set_prefix_append ((List.range n).map f) (l[n]) (f n)
      (l.drop (n + 1))
    rw [show ((List.range n).map f).length = n by simp] at hset
    rw [hset]
    simp

theorem getD_map_range {α : Type} (f : Nat → α) (n k : Nat) (hk : k < n)
    (d : α) : ((List.range n).map f).getD k d = f k := by
  have hk' : k < ((List.range n).map f).length := by simpa using hk
  rw [List.getD_eq_getElem _ _ hk']
  simp

/-- C7: whenever the mesh converts successfully, the call returns an array
of length `M` whose entry `k` is the pipeline area for the plane of edge
`k` of `graph_edges`, in the order the edges are given. -/
theorem calculate_cross_sections_spec (area : Vec3 → Vec3 → ℝ)
    (mesh : TriMesh) (graph_verts : Nat → Vec3)
    (graph_edges : List (Nat × Nat))
    (hmesh : ∃ pd, trimesh_to_vtk mesh.vertices mesh.faces = .ok pd) :
    ∃ out,
      calculate_cross_sections area mesh graph_verts graph_edges =
          .ok out ∧
        out.length = graph_edges.length ∧
        ∀ k, k < graph_edges.length →
          out.getD k 0 =
            area (edgeNormal graph_verts (graph_edges.getD k (0, 0)))
              (edgeOrigin graph_verts (graph_edges.getD k (0, 0))) := by
  obtain ⟨pd, hpd⟩ := hmesh
  refine ⟨(List.range graph_edges.length).map (fun k =>
    area ((graph_edges.map (fun e => edgeNormal graph_verts e)).getD k
        ⟨0, 0, 0⟩)
      (edgeOrigin graph_verts (graph_edges.getD k (0, 0)))), ?_, ?_, ?_⟩
  · unfold calculate_cross_sections
    rw [hpd]
    have h := foldl_set_range (fun k =>
      area ((graph_edges.map (fun e => edgeNormal graph_verts e)).getD k
          ⟨0, 0, 0⟩)
        (edgeOrigin graph_verts (graph_edges.getD k (0, 0))))
      graph_edges.length (List.replicate graph_edges.length (0 : ℝ))
      (by simp)
    simpa using h
  · simp
  · intro k hk
    rw [getD_map_range _ _ _ hk]
    have hk' : k < (graph_edges.map
        (fun e => edgeNormal graph_verts e)).length := by simpa using hk
    rw [List.getD_eq_getElem _ _ hk', List.getD_eq_getElem _ _ hk]
    simp

/-- Concrete area oracle for instantiating the cross-section theorems. -/
noncomputable def areaW : Vec3 → Vec3 → ℝ := fun _ _ => 1

/-- Concrete vertex function placing every graph vertex at distinct
points on the x axis. -/
def vertsW : Nat → Vec3 := fun i => ⟨(i : ℝ), 0, 0⟩

/-- A concrete one-triangle mesh over three vertices. -/
def meshW : TriMesh :=
  ⟨[⟨0, 0, 0⟩, ⟨1, 0, 0⟩, ⟨0, 1, 0⟩], ⟨[[0, 1, 2]], 3, by decide⟩⟩

theorem calculate_cross_sections_spec_witness :
    ∃ out,
      calculate_cross_sections areaW meshW vertsW [(0, 1)] = .ok out ∧
        out.length = 1 ∧
        out.getD 0 0 =
          areaW (edgeNormal vertsW ([(0, 1)].getD 0 (0, 0)))
            (edgeOrigin vertsW ([(0, 1)].getD 0 (0, 0))) := by
  obtain ⟨out, h1, h2, h3⟩ :=
    calculate_cross_sections_spec areaW meshW vertsW [(0, 1)] ⟨_, rfl⟩
  exact ⟨out, h1, h2, h3 0 (by decide)⟩

theorem norm3_eq_zero_iff (v : Vec3) : norm3 v = 0 ↔ v = ⟨0, 0, 0⟩ := by
  unfold norm3
  rw [Real.sqrt_eq_zero (by positivity)]
  obtain ⟨x, y, z⟩ := v
  simp only [Vec3.mk.injEq]
  constructor
  · intro h
    have hx : x ^ 2 = 0 := by
      linarith [sq_nonneg x, sq_nonneg y, sq_nonneg z]
    have hy : y ^ 2 = 0 := by
      linarith [sq_nonneg x, sq_nonneg y, sq_nonneg z]
    have hz : z ^ 2 = 0 := by
      linarith [sq_nonneg x, sq_nonneg y, sq_nonneg z]
    exact ⟨sq_eq_zero_iff.mp hx, sq_eq_zero_iff.mp hy, sq_eq_zero_iff.mp hz⟩
  · rintro ⟨rfl, rfl, rfl⟩
    norm_num

theorem vec3_sub_eq_zero_iff (a b : Vec3) :
    a - b = ⟨0, 0, 0⟩ ↔ a = b := by
  obtain ⟨a1, a2, a3⟩ := a
  obtain ⟨b1, b2, b3⟩ := b
  simp [Vec3.sub_def, Vec3.mk.injEq, sub_eq_zero]

/-- C10: the cutting plane for an edge has origin at the first endpoint
and normal the normalized difference of the endpoints, and the
normalizing divisor is nonzero exactly when the endpoints have distinct
coordinates. -/
theorem cutting_plane_spec (graph_verts : Nat → Vec3) (e : Nat × Nat) :
    edgeOrigin graph_verts e = graph_verts e.1 ∧
      edgeNormal graph_verts e =
        vdiv (graph_verts e.1 - graph_verts e.2)
          (norm3 (graph_verts e.1 - graph_verts e.2)) ∧
      (norm3 (graph_verts e.1 - graph_verts e.2) ≠ 0 ↔
        graph_verts e.1 ≠ graph_verts e.2) := by
  refine ⟨rfl, rfl, ?_⟩
  rw [not_iff_not, norm3_eq_zero_iff, vec3_sub_eq_zero_iff]

end MeshParty
